import Mathlib

/-!
Shallow embedding of the vision-craft developer-tooling scripts
(`scripts/check-header-guards.py`, `scripts/check-todos.py`,
`scripts/check-namespaces.py`, `scripts/run-clang-tidy.py`,
`scripts/run-coverage.py`, `scripts/run-code-quality.py`).

File contents are embedded as `List Char`; a fallible file read is an
`Except (List Char) ...` value whose `error` constructor carries the I/O
fault message.  The Python regular-expression searches used by the
checkers are embedded as executable Boolean matchers over `List Char`
with the usual backtracking matchability semantics (a `re.search`
succeeds iff some decomposition of the text matches the pattern).
All character classes are modelled at their ASCII meaning.
-/

/-- The ASCII characters matched by the regex class `\s` in Python
(space, tab, newline, carriage return, vertical tab, form feed). -/
def isPySpace (c : Char) : Bool :=
  c == ' ' || c == '\t' || c == '\n' || c == '\r' || c == '\x0b' || c == '\x0c'

/-- Python `str.strip()`: drop leading and trailing whitespace. -/
def pyStrip (cs : List Char) : List Char :=
  ((cs.dropWhile isPySpace).reverse.dropWhile isPySpace).reverse

/-- Python `s.replace(a, b)` for single-character `a`, `b`. -/
def pyReplaceChar (a b : Char) (cs : List Char) : List Char :=
  cs.map fun c => if c == a then b else c

/-- Python `str.upper()` (ASCII letters). -/
def pyUpper (cs : List Char) : List Char :=
  cs.map Char.toUpper

/-- The suffix of `cs` following the first occurrence of the substring
`pat`, if `pat` occurs in `cs` (this is `cs.split(pat, 1)[1]` guarded by
`pat in cs` in Python). -/
def afterFirst (pat : List Char) : List Char → Option (List Char)
  | [] => if pat.isPrefixOf ([] : List Char) then some [] else none
  | c :: cs =>
    if pat.isPrefixOf (c :: cs) then some ((c :: cs).drop pat.length)
    else afterFirst pat cs

/-- Python `pat in cs` (substring containment). -/
def containsSub (pat cs : List Char) : Bool :=
  (afterFirst pat cs).isSome

/-! ## check-header-guards.py -/

/-- `expected_guard` derivation from `check_header_guard`
(check-header-guards.py, lines 10-18): take the path (already in POSIX
form), drop everything up to and including the first occurrence of the
substring `src/` when present, replace `/` and `.` by `_`, upper-case. -/
def expected_guard (path : List Char) : List Char :=
  let rel := (afterFirst ("src/".toList) path).getD path
  pyUpper (pyReplaceChar '.' '_' (pyReplaceChar '/' '_' rel))

/-- The guard the spec's words describe when applied to the whole path
(no source-root stripping): separators and dots to `_`, upper-cased.
Used to compare the code's derivation against the spec's description
for paths whose source-root prefix is absent. -/
def wholePathGuard (path : List Char) : List Char :=
  pyUpper (pyReplaceChar '.' '_' (pyReplaceChar '/' '_' path))

/-- Matchability of `\s+` followed by the literal `g`: some non-empty
run of whitespace characters, then `g`, then anything. -/
def wsPlusThen (g : List Char) : List Char → Bool
  | [] => false
  | c :: cs => isPySpace c && (g.isPrefixOf cs || wsPlusThen g cs)

/-- Matchability of the anchored pattern `dir\s+g` at the head of `cs`
(`dir` and `g` matched literally, `g` is `re.escape`d in the source). -/
def matchDirAt (dir g cs : List Char) : Bool :=
  dir.isPrefixOf cs && wsPlusThen g (cs.drop dir.length)

/-- `re.search` of `dir\s+g`: the anchored pattern matches at some
position of the text. -/
def searchDir (dir g : List Char) : List Char → Bool
  | [] => false
  | c :: cs => matchDirAt dir g (c :: cs) || searchDir dir g cs

/-- `check_header_guard` (check-header-guards.py, lines 8-42), with the
`open`/`read` modelled as an `Except` argument.  Returns the passed flag
together with the lines the call prints. -/
def check_header_guard (filepath : List Char) (readRes : Except (List Char) (List Char)) :
    Bool × List (List Char) :=
  let g := expected_guard filepath
  match readRes with
  | .error e =>
    (false, [("Error reading ".toList) ++ filepath ++ (": ".toList) ++ e])
  | .ok content =>
    if containsSub ("#pragma once".toList) content then (true, [])
    else if searchDir ("#ifndef".toList) g content && searchDir ("#define".toList) g content then
      (true, [])
    else
      (false,
        [filepath ++ (": Missing proper header guard (expected: ".toList) ++ g ++
          (" or #pragma once)".toList)])

/-! ## check-todos.py -/

/-- `re.search` of the trigger pattern `//(TODO|FIXME)`: the line
contains `//TODO` or `//FIXME` as a substring. -/
def searchTodoMarker (line : List Char) : Bool :=
  containsSub ("//TODO".toList) line || containsSub ("//FIXME".toList) line

/-- Matchability of `.+` at the head: at least one character other than
a newline (`.` does not match `\n` in Python without DOTALL). -/
def dotPlus : List Char → Bool
  | [] => false
  | c :: _ => c != '\n'

/-- Matchability of `\s+.+` at the head. -/
def wsPlusDot : List Char → Bool
  | [] => false
  | c :: cs => isPySpace c && (dotPlus cs || wsPlusDot cs)

/-- Matchability of `:\s+.+` at the head. -/
def colonWsText : List Char → Bool
  | ':' :: rest => wsPlusDot rest
  | _ => false

/-- Matchability of `\):\s+.+` at the head. -/
def closeThenColon : List Char → Bool
  | ')' :: rest => colonWsText rest
  | _ => false

/-- Matchability of `[^)]+\):\s+.+` at the head: a non-empty run of
characters other than `)`, the closing parenthesis, then the colon part. -/
def parenBody : List Char → Bool
  | [] => false
  | c :: cs => c != ')' && (closeThenColon cs || parenBody cs)

/-- Matchability of `(\([^)]+\))?:\s+.+` at the head: either the colon
part directly, or a parenthesized attribution then the colon part. -/
def afterMarker (cs : List Char) : Bool :=
  colonWsText cs ||
    (match cs with
     | '(' :: rest => parenBody rest
     | _ => false)

/-- Matchability of the full pattern `//(TODO|FIXME)(\([^)]+\))?:\s+.+`
anchored at the head of `cs`. -/
def matchValidAt (cs : List Char) : Bool :=
  (("//TODO".toList).isPrefixOf cs && afterMarker (cs.drop 6)) ||
    (("//FIXME".toList).isPrefixOf cs && afterMarker (cs.drop 7))

/-- `re.search` of the valid-format pattern over a line. -/
def searchValid : List Char → Bool
  | [] => false
  | c :: cs => matchValidAt (c :: cs) || searchValid cs

/-- The issue-collecting loop of `check_todos` (check-todos.py, lines
21-24): `for i, line in enumerate(lines, n)`, flagging each line that
contains a marker but does not match the valid-format pattern, recording
the 1-based line number and the stripped line text. -/
def todoIssues : Nat → List (List Char) → List (Nat × List Char)
  | _, [] => []
  | n, l :: ls =>
    (if searchTodoMarker l && !searchValid l then [(n, pyStrip l)] else []) ++
      todoIssues (n + 1) ls

/-- The printed form of one collected issue: `  Line {i}: {text}`. -/
def fmtIssue (p : Nat × List Char) : List Char :=
  ("  Line ".toList) ++ (Nat.repr p.1).toList ++ (": ".toList) ++ p.2

/-- `check_todos` (check-todos.py, lines 7-33), the file read modelled
as an `Except` of the line list (as produced by `readlines`, trailing
newlines included).  Returns the passed flag and the printed lines. -/
def check_todos (filepath : List Char) (readRes : Except (List Char) (List (List Char))) :
    Bool × List (List Char) :=
  match readRes with
  | .error e =>
    (false, [("Error reading ".toList) ++ filepath ++ (": ".toList) ++ e])
  | .ok lines =>
    let issues := todoIssues 1 lines
    if issues.isEmpty then (true, [])
    else
      (false,
        (filepath ++ (":".toList)) ::
          ("  TODO/FIXME must be formatted as: // TODO: description".toList) ::
            issues.map fmtIssue)

/-! ## check-namespaces.py -/

/-- `check_namespaces` (check-namespaces.py, lines 7-26): on a read
fault it prints the error and returns `False`; otherwise it computes two
regex `findall` results that are never used and returns `True`
unconditionally ("For now, just pass"). -/
def check_namespaces (filepath : List Char) (readRes : Except (List Char) (List Char)) :
    Bool × List (List Char) :=
  match readRes with
  | .error e =>
    (false, [("Error reading ".toList) ++ filepath ++ (": ".toList) ++ e])
  | .ok _content => (true, [])

/-! ## The shared `main` shape of the three checker scripts -/

/-- The per-file loop of each checker's `main`: apply the check to every
file in the given order, accumulating all printed diagnostic lines and
the list of failed files. -/
def runnerLoop (check : α → Bool × List (List Char)) :
    List α → List (List Char) × List α
  | [] => ([], [])
  | f :: fs =>
    let r := check f
    let rest := runnerLoop check fs
    (r.2 ++ rest.1, (if r.1 then [] else [f]) ++ rest.2)

/-- A checker's `main`: with no files it returns 0 immediately;
otherwise it runs the loop and, when some file failed, prints the
trailing summary line `\n{len(failed)} file(s) ...` and returns 1.
Result: (exit code, printed diagnostic lines, printed summary line). -/
def runnerMain (check : α → Bool × List (List Char)) (summaryTail : List Char)
    (files : List α) : Nat × List (List Char) × Option (List Char) :=
  if files.isEmpty then (0, [], none)
  else
    let r := runnerLoop check files
    if r.2.isEmpty then (0, r.1, none)
    else (1, r.1, some ('\n' :: ((Nat.repr r.2.length).toList ++ summaryTail)))

/-- `main` of check-header-guards.py (lines 45-60). -/
def header_guards_main (files : List (List Char × Except (List Char) (List Char))) :
    Nat × List (List Char) × Option (List Char) :=
  runnerMain (fun f => check_header_guard f.1 f.2)
    (" file(s) with header guard issues".toList) files

/-- `main` of check-todos.py (lines 36-49). -/
def todos_main (files : List (List Char × Except (List Char) (List (List Char)))) :
    Nat × List (List Char) × Option (List Char) :=
  runnerMain (fun f => check_todos f.1 f.2)
    (" file(s) with TODO/FIXME format issues".toList) files

/-- `main` of check-namespaces.py (lines 29-45). -/
def namespaces_main (files : List (List Char × Except (List Char) (List Char))) :
    Nat × List (List Char) × Option (List Char) :=
  runnerMain (fun f => check_namespaces f.1 f.2)
    (" file(s) with namespace format issues".toList) files

/-! ## run-clang-tidy.py -/

/-- The parsed arguments of run-clang-tidy.py (`--config-file`,
`--header-filter`, positional `files`). -/
structure TidyArgs where
  config_file : List Char
  header_filter : List Char
  files : List (List Char)

/-- The observable outcome of run-clang-tidy.py's `main`: exit code, the
printed lines, every subprocess command it launches and every file it
opens (the source launches none and opens none). -/
structure TidyOutcome where
  exit : Nat
  printed : List (List Char)
  subprocessCalls : List (List (List Char))
  filesOpened : List (List Char)

/-- `main` of run-clang-tidy.py (lines 9-25): with no files it prints
`No files to check` and returns 0; with files it prints the skip notice
and the note and returns 0.  No subprocess is run and no file is read in
either branch. -/
def run_clang_tidy_main (args : TidyArgs) : TidyOutcome :=
  if args.files.isEmpty then
    { exit := 0
      printed := ["No files to check".toList]
      subprocessCalls := []
      filesOpened := [] }
  else
    { exit := 0
      printed :=
        [("clang-tidy: Skipping ".toList) ++ (Nat.repr args.files.length).toList ++
            (" file(s) (requires build configuration)".toList),
          "Note: Run 'cmake --build build --target tidy-all' for full static analysis".toList]
      subprocessCalls := []
      filesOpened := [] }

/-! ## Subprocess wrappers of run-coverage.py and run-code-quality.py -/

/-- The outcome of one `subprocess.run` invocation, as seen by the
caller: normal completion with a return code and captured output
streams, a `TimeoutExpired` fault, or a launch fault (e.g. the
executable was not found). -/
inductive ProcResult where
  | completed (returncode : Int) (out err : List Char)
  | timedOut (msg : List Char)
  | launchFault (msg : List Char)

/-- The `timeout` argument run-coverage.py's `run_command` passes to
`subprocess.run` (lines 102-119): none is passed. -/
def coverage_run_command_timeout : Option Nat := none

/-- `run_command` of run-coverage.py (lines 102-119): runs the command
with `stderr` merged into `stdout` and no timeout; when `check` is set
and the command exits non-zero, the resulting `CalledProcessError` is
printed and re-raised, and a launch fault is not caught at all, so both
escape to the caller (`Except.error`).  `main` installs no handler, so
an escaping fault aborts the whole run via the top-level handler. -/
def coverage_run_command (check : Bool) (res : ProcResult) :
    Except (List Char) (Int × List Char) :=
  match res with
  | .completed rc out _err =>
    if check && rc != 0 then .error ("CalledProcessError".toList) else .ok (rc, out)
  | .timedOut m => .error m
  | .launchFault m => .error m

/-- The top level of run-coverage.py (lines 406-419): a
`KeyboardInterrupt` exits 130, any other escaping exception is printed
with a traceback and exits 1. -/
def coverage_top_level (r : Except (List Char) Unit) : Nat :=
  match r with
  | .ok _ => 0
  | .error _ => 1

/-- The `timeout` argument run-code-quality.py's `run_command` passes to
`subprocess.run` (lines 14-21): 300. -/
def quality_run_command_timeout : Option Nat := some 300

/-- `run_command` of run-code-quality.py (lines 14-21): runs the command
with `timeout=300`; on completion it returns
`(returncode == 0, stdout, stderr)`, and every exception — a timeout as
well as a launch fault — is caught and turned into
`(False, "", str(e))`, a failure of that step only. -/
def quality_run_command (res : ProcResult) : Bool × List Char × List Char :=
  match res with
  | .completed rc out err => (rc == 0, out, err)
  | .timedOut m => (false, [], m)
  | .launchFault m => (false, [], m)

/-! ## Characterization lemmas for the embedded searches -/

/-- `isPrefixOf` agrees with the existence of a completing suffix. -/
theorem isPre_iff : ∀ (p l : List Char), p.isPrefixOf l = true ↔ ∃ t, l = p ++ t
  | [], l => by simp [List.isPrefixOf]
  | a :: p, [] => by simp [List.isPrefixOf]
  | a :: p, b :: l => by
    simp only [List.isPrefixOf, Bool.and_eq_true, beq_iff_eq, List.cons_append,
      List.cons.injEq]
    rw [isPre_iff p l]
    constructor
    · rintro ⟨rfl, t, rfl⟩
      exact ⟨t, rfl, rfl⟩
    · rintro ⟨t, rfl, rfl⟩
      exact ⟨rfl, t, rfl⟩

/-- `containsSub` is exactly substring containment. -/
theorem containsSub_iff : ∀ (pat cs : List Char),
    containsSub pat cs = true ↔ ∃ l r, cs = l ++ pat ++ r
  | pat, [] => by
    constructor
    · intro h
      simp only [containsSub, afterFirst] at h
      split at h
      · next hp =>
        rcases (isPre_iff pat []).mp hp with ⟨t, ht⟩
        rcases List.append_eq_nil.mp ht.symm with ⟨hp1, hp2⟩
        exact ⟨[], [], by simp [hp1]⟩
      · simp at h
    · rintro ⟨l, r, hc⟩
      rcases List.append_eq_nil.mp hc.symm with ⟨hlp, rfl⟩
      rcases List.append_eq_nil.mp hlp with ⟨rfl, rfl⟩
      decide
  | pat, c :: cs => by
    simp only [containsSub, afterFirst]
    split
    · next hp =>
      simp only [Option.isSome_some, true_iff]
      rcases (isPre_iff pat (c :: cs)).mp hp with ⟨t, ht⟩
      exact ⟨[], t, by simpa using ht⟩
    · next hp =>
      rw [show (afterFirst pat cs).isSome = containsSub pat cs from rfl]
      rw [containsSub_iff pat cs]
      constructor
      · rintro ⟨l, r, rfl⟩
        exact ⟨c :: l, r, rfl⟩
      · rintro ⟨l, r, hc⟩
        cases l with
        | nil =>
          exact absurd ((isPre_iff pat (c :: cs)).mpr ⟨r, by simpa using hc⟩) hp
        | cons a l' =>
          rw [List.cons_append, List.cons_append] at hc
          injection hc with h1 h2
          exact ⟨l', r, by simpa using h2⟩

/-- `wsPlusThen g` matches exactly the texts that start with a non-empty
whitespace run followed by `g`. -/
theorem wsPlusThen_iff : ∀ (g cs : List Char),
    wsPlusThen g cs = true ↔
      ∃ ws r, cs = ws ++ g ++ r ∧ ws ≠ [] ∧ ws.all isPySpace = true
  | g, [] => by
    constructor
    · intro h
      simp [wsPlusThen] at h
    · rintro ⟨ws, r, h, hne, _⟩
      cases ws with
      | nil => exact absurd rfl hne
      | cons a ws' => simp at h
  | g, c :: cs => by
    simp only [wsPlusThen, Bool.and_eq_true, Bool.or_eq_true]
    constructor
    · rintro ⟨hsp, hor⟩
      cases hor with
      | inl hpre =>
        rcases (isPre_iff g cs).mp hpre with ⟨t, rfl⟩
        exact ⟨[c], t, by simp, by simp, by simp [hsp]⟩
      | inr hrec =>
        rcases (wsPlusThen_iff g cs).mp hrec with ⟨ws, r, rfl, hne, hall⟩
        exact ⟨c :: ws, r, by simp, by simp, by simp [hsp, hall]⟩
    · rintro ⟨ws, r, hcs, hne, hall⟩
      cases ws with
      | nil => exact absurd rfl hne
      | cons a ws' =>
        rw [List.cons_append, List.cons_append] at hcs
        injection hcs with h1 h2
        subst h1
        simp only [List.all_cons, Bool.and_eq_true] at hall
        refine ⟨hall.1, ?_⟩
        cases ws' with
        | nil =>
          exact Or.inl ((isPre_iff g cs).mpr ⟨r, by simpa using h2⟩)
        | cons b ws'' =>
          exact Or.inr ((wsPlusThen_iff g cs).mpr
            ⟨b :: ws'', r, by simpa using h2, by simp, by simpa using hall.2⟩)

/-- `matchDirAt dir g` matches exactly the texts that start with `dir`,
then a non-empty whitespace run, then `g`. -/
theorem matchDirAt_iff (dir g cs : List Char) :
    matchDirAt dir g cs = true ↔
      ∃ ws r, cs = dir ++ ws ++ g ++ r ∧ ws ≠ [] ∧ ws.all isPySpace = true := by
  simp only [matchDirAt, Bool.and_eq_true]
  constructor
  · rintro ⟨hpre, hws⟩
    rcases (isPre_iff dir cs).mp hpre with ⟨t, rfl⟩
    rw [List.drop_left] at hws
    rcases (wsPlusThen_iff g t).mp hws with ⟨ws, r, rfl, hne, hall⟩
    exact ⟨ws, r, by simp, hne, hall⟩
  · rintro ⟨ws, r, rfl, hne, hall⟩
    refine ⟨(isPre_iff dir _).mpr ⟨ws ++ g ++ r, by simp⟩, ?_⟩
    rw [show dir ++ ws ++ g ++ r = dir ++ (ws ++ g ++ r) by simp, List.drop_left]
    exact (wsPlusThen_iff g _).mpr ⟨ws, r, rfl, hne, hall⟩

/-- `searchDir dir g` (the embedded `re.search` of `dir\s+g`) succeeds
exactly on the texts containing `dir`, a non-empty whitespace run, then
`g`, at some position. -/
theorem searchDir_iff : ∀ (dir g cs : List Char),
    searchDir dir g cs = true ↔
      ∃ l ws r, cs = l ++ dir ++ ws ++ g ++ r ∧ ws ≠ [] ∧ ws.all isPySpace = true
  | dir, g, [] => by
    constructor
    · intro h
      simp [searchDir] at h
    · rintro ⟨l, ws, r, hcs, hne, _⟩
      rcases List.append_eq_nil.mp hcs.symm with ⟨h1, rfl⟩
      rcases List.append_eq_nil.mp h1 with ⟨h2, rfl⟩
      rcases List.append_eq_nil.mp h2 with ⟨h3, rfl⟩
      exact absurd rfl hne
  | dir, g, c :: cs => by
    simp only [searchDir, Bool.or_eq_true]
    constructor
    · rintro (hm | hs)
      · rcases (matchDirAt_iff dir g (c :: cs)).mp hm with ⟨ws, r, hcs, hne, hall⟩
        exact ⟨[], ws, r, by simpa using hcs, hne, hall⟩
      · rcases (searchDir_iff dir g cs).mp hs with ⟨l, ws, r, rfl, hne, hall⟩
        exact ⟨c :: l, ws, r, rfl, hne, hall⟩
    · rintro ⟨l, ws, r, hcs, hne, hall⟩
      cases l with
      | nil =>
        exact Or.inl ((matchDirAt_iff dir g (c :: cs)).mpr
          ⟨ws, r, by simpa using hcs, hne, hall⟩)
      | cons a l' =>
        rw [List.cons_append, List.cons_append] at hcs
        injection hcs with h1 h2
        exact Or.inr ((searchDir_iff dir g cs).mpr ⟨l', ws, r, by simpa using h2, hne, hall⟩)

/-! ## Lemmas about the checker main loops -/

/-- The failed-file list collected by the loop is exactly the filter of
the failing files, in input order. -/
theorem runnerLoop_failed_eq {α : Type} (check : α → Bool × List (List Char)) :
    ∀ files : List α,
      (runnerLoop check files).2 = files.filter (fun f => !(check f).1)
  | [] => rfl
  | f :: fs => by
    simp only [runnerLoop, List.filter_cons]
    rw [runnerLoop_failed_eq check fs]
    cases h : (check f).1 <;> simp [h]

/-- The loop distributes over list append: a batch is processed file by
file, independently. -/
theorem runnerLoop_append {α : Type} (check : α → Bool × List (List Char)) :
    ∀ xs ys : List α,
      runnerLoop check (xs ++ ys) =
        ((runnerLoop check xs).1 ++ (runnerLoop check ys).1,
          (runnerLoop check xs).2 ++ (runnerLoop check ys).2)
  | [], ys => by simp [runnerLoop]
  | x :: xs, ys => by
    have ih : runnerLoop check (xs.append ys) =
        ((runnerLoop check xs).1 ++ (runnerLoop check ys).1,
          (runnerLoop check xs).2 ++ (runnerLoop check ys).2) :=
      runnerLoop_append check xs ys
    simp only [List.cons_append, runnerLoop, ih]
    simp [List.append_assoc]

/-! ## Lemmas about the todo-issue collection -/

/-- Membership characterization of the collected issues: `(i, t)` is
collected iff line `i` (numbered from `n` for the head) exists, contains
a marker, fails the valid-format search, and `t` is its stripped text. -/
theorem mem_todoIssues : ∀ (n : Nat) (lines : List (List Char)) (i : Nat) (t : List Char),
    (i, t) ∈ todoIssues n lines ↔
      ∃ k l, lines[k]? = some l ∧ i = n + k ∧
        searchTodoMarker l = true ∧ searchValid l = false ∧ t = pyStrip l
  | n, [], i, t => by simp [todoIssues]
  | n, l :: ls, i, t => by
    simp only [todoIssues, List.mem_append]
    constructor
    · rintro (hm | hm)
      · split at hm
        · next hf =>
          simp only [List.mem_singleton, Prod.mk.injEq] at hm
          obtain ⟨rfl, rfl⟩ := hm
          rcases Bool.and_eq_true .. |>.mp hf with ⟨hf1, hf2⟩
          exact ⟨0, l, by simp, by simp, hf1, by simpa using hf2, rfl⟩
        · simp at hm
      · rcases (mem_todoIssues (n + 1) ls i t).mp hm with ⟨k, l', hk, hi, hm1, hm2, ht⟩
        exact ⟨k + 1, l', by simpa using hk, by omega, hm1, hm2, ht⟩
    · rintro ⟨k, l', hk, rfl, hm1, hm2, rfl⟩
      cases k with
      | zero =>
        left
        simp only [List.getElem?_cons_zero, Option.some.injEq] at hk
        subst hk
        simp [hm1, hm2]
      | succ k' =>
        right
        simp only [List.getElem?_cons_succ] at hk
        exact (mem_todoIssues (n + 1) ls _ _).mpr ⟨k', l', hk, by omega, hm1, hm2, rfl⟩

/-- Every collected issue's line number is at least the starting index. -/
theorem todoIssues_fst_ge : ∀ (n : Nat) (lines : List (List Char)) (x : Nat × List Char),
    x ∈ todoIssues n lines → n ≤ x.1
  | n, [], x => by simp [todoIssues]
  | n, l :: ls, x => by
    simp only [todoIssues, List.mem_append]
    rintro (hm | hm)
    · split at hm
      · simp only [List.mem_singleton] at hm
        subst hm
        exact Nat.le_refl n
      · simp at hm
    · have := todoIssues_fst_ge (n + 1) ls x hm
      omega

/-- The collected issues are in strictly ascending line order. -/
theorem todoIssues_sorted : ∀ (n : Nat) (lines : List (List Char)),
    List.Pairwise (fun a b : Nat × List Char => a.1 < b.1) (todoIssues n lines)
  | _, [] => List.Pairwise.nil
  | n, l :: ls => by
    simp only [todoIssues]
    split
    · simp only [List.singleton_append]
      refine List.Pairwise.cons ?_ (todoIssues_sorted (n + 1) ls)
      intro b hb
      have := todoIssues_fst_ge (n + 1) ls b hb
      omega
    · simpa using todoIssues_sorted (n + 1) ls

/-- A filter for failing elements is empty exactly when all pass. -/
theorem filter_not_nil_iff_all {α : Type} (p : α → Bool) (l : List α) :
    l.filter (fun a => !p a) = [] ↔ l.all p = true := by
  induction l with
  | nil => simp
  | cons a l ih =>
    cases h : p a <;> simp [List.filter_cons, List.all_cons, h, ih]

/-- The passed flag of `check_header_guard` on readable content is the
pragma-containment check or the conjunction of the two directive
searches, in the source's order. -/
theorem check_header_guard_ok_pass (path content : List Char) :
    (check_header_guard path (Except.ok content)).1 =
      (containsSub ("#pragma once".toList) content ||
        (searchDir ("#ifndef".toList) (expected_guard path) content &&
          searchDir ("#define".toList) (expected_guard path) content)) := by
  have h : ∀ (b1 b2 : Bool) (m : List (List Char)),
      (if b1 then ((true : Bool), ([] : List (List Char)))
        else if b2 then (true, []) else (false, m)).1 = (b1 || b2) := by
    intro b1 b2 m
    cases b1 <;> cases b2 <;> simp
  exact h _ _ _

/-- On readable content, `check_header_guard` prints nothing on a pass
and exactly one diagnostic naming the expected guard on a failure. -/
theorem check_header_guard_ok_diags (path content : List Char) :
    (check_header_guard path (Except.ok content)).2 =
      if (check_header_guard path (Except.ok content)).1 then []
      else [path ++ (": Missing proper header guard (expected: ".toList) ++
          expected_guard path ++ (" or #pragma once)".toList)] := by
  have h : ∀ (b1 b2 : Bool) (m : List (List Char)),
      (if b1 then ((true : Bool), ([] : List (List Char)))
        else if b2 then (true, []) else (false, m)).2 =
        (if (if b1 then ((true : Bool), ([] : List (List Char)))
            else if b2 then (true, []) else (false, m)).1 then [] else m) := by
    intro b1 b2 m
    cases b1 <;> cases b2 <;> simp
  exact h _ _ _

/-- `check_todos` on readable lines passes exactly when no issue is
collected. -/
theorem check_todos_pass_iff (path : List Char) (lines : List (List Char)) :
    (check_todos path (Except.ok lines)).1 = true ↔ todoIssues 1 lines = [] := by
  cases hl : todoIssues 1 lines with
  | nil => simp [check_todos, hl]
  | cons a as => simp [check_todos, hl]


/-- Case form of a checker's `main`: when no file fails it returns exit
0 with no summary; when some file fails it returns exit 1 and the
summary line carrying the failing-file count. -/
theorem runnerMain_cases {α : Type} (check : α → Bool × List (List Char)) (tail : List Char)
    (files : List α) :
    runnerMain check tail files =
      if (files.filter (fun f => !(check f).1)).isEmpty then
        (0, (runnerLoop check files).1, none)
      else
        (1, (runnerLoop check files).1,
          some ('\n' ::
            ((Nat.repr (files.filter (fun f => !(check f).1)).length).toList ++ tail))) := by
  have hfail := runnerLoop_failed_eq check files
  simp only [runnerMain]
  split
  · next hemp =>
    have h0 : files = [] := List.isEmpty_iff.mp hemp
    subst h0
    simp [runnerLoop]
  · next hemp =>
    rw [hfail]

/-! ## Claim theorems -/

/-- C1 (counterexample): the claim "changing either token so it no
longer matches guard(P) makes it fail" is false.  For the path
`src/Layers/Layer.h` the derived guard is `LAYERS_LAYER_H`; a file whose
two guard tokens are both `LAYERS_LAYER_HX` — a different token — still
passes, because the source's `re.search` of `#ifndef\s+GUARD` is not
anchored on the right, so any token extending the guard name matches.
The content contains no scoped-compilation pragma, so the pass comes
from the two directive searches alone. -/
theorem C1_counterexample :
    expected_guard ("src/Layers/Layer.h".toList) = "LAYERS_LAYER_H".toList ∧
    ("LAYERS_LAYER_HX".toList ≠ "LAYERS_LAYER_H".toList) ∧
    containsSub ("#pragma once".toList)
      ("#ifndef LAYERS_LAYER_HX\n#define LAYERS_LAYER_HX\n".toList) = false ∧
    (check_header_guard ("src/Layers/Layer.h".toList)
      (Except.ok ("#ifndef LAYERS_LAYER_HX\n#define LAYERS_LAYER_HX\n".toList))).1 = true := by
  refine ⟨by decide, by decide, by decide, by decide⟩

/-- C1 (amended): for readable content, the header-guard predicate
passes iff the content contains the scoped-compilation pragma marker
anywhere, or contains both an ifndef directive and a define directive
each followed by whitespace and then text that *begins with* the derived
guard name `guard(P)` (the search is unanchored, so a token extending
the guard also matches); on failure it emits exactly one diagnostic
naming the expected guard token; content containing exactly
`#ifndef guard(P)` and `#define guard(P)` passes; and changing a token
so the guard name is no longer a prefix of it makes the check fail
(concrete instance: token `LAYERS_LAYER_X` for path
`src/Layers/Layer.h`). -/
theorem C1_header_guard_predicate (path content : List Char) :
    ((check_header_guard path (Except.ok content)).1 = true ↔
      (∃ l r, content = l ++ ("#pragma once".toList) ++ r) ∨
        ((∃ l ws r, content = l ++ ("#ifndef".toList) ++ ws ++ expected_guard path ++ r ∧
            ws ≠ [] ∧ ws.all isPySpace = true) ∧
          (∃ l ws r, content = l ++ ("#define".toList) ++ ws ++ expected_guard path ++ r ∧
            ws ≠ [] ∧ ws.all isPySpace = true))) ∧
    ((check_header_guard path (Except.ok content)).2 =
      if (check_header_guard path (Except.ok content)).1 then []
      else [path ++ (": Missing proper header guard (expected: ".toList) ++
          expected_guard path ++ (" or #pragma once)".toList)]) ∧
    ((check_header_guard path (Except.ok (("#ifndef ".toList) ++ expected_guard path ++
        ("\n#define ".toList) ++ expected_guard path ++ ("\n".toList)))).1 = true) ∧
    ((check_header_guard ("src/Layers/Layer.h".toList)
        (Except.ok ("#ifndef LAYERS_LAYER_X\n#define LAYERS_LAYER_X\n".toList))).1 = false) := by
  refine ⟨?_, check_header_guard_ok_diags path content, ?_, by decide⟩
  · rw [check_header_guard_ok_pass]
    simp only [Bool.or_eq_true, Bool.and_eq_true, containsSub_iff, searchDir_iff]
  · rw [check_header_guard_ok_pass]
    have h1 : ("#ifndef ".toList) = ("#ifndef".toList) ++ [' '] := by decide
    have h2 : ("\n#define ".toList) = ['\n'] ++ ("#define".toList) ++ [' '] := by decide
    simp only [Bool.or_eq_true, Bool.and_eq_true]
    refine Or.inr ⟨?_, ?_⟩
    · refine (searchDir_iff _ _ _).mpr
        ⟨[], [' '], ("\n#define ".toList) ++ expected_guard path ++ ("\n".toList),
          ?_, by simp, by decide⟩
      simp [h1, List.append_assoc]
    · refine (searchDir_iff _ _ _).mpr
        ⟨("#ifndef ".toList) ++ expected_guard path ++ ['\n'], [' '], ("\n".toList),
          ?_, by simp, by decide⟩
      simp [h2, List.append_assoc]

/-- C2: the annotation-format predicate flags exactly the lines that
contain a `//TODO` or `//FIXME` marker but do not match the stricter
pattern; it collects ALL violations, each carrying the 1-based line
number and the trimmed line text, in strictly ascending line order; the
per-file check passes iff no violation is collected.  Concretely,
`//TODO: fix this` passes, `//TODO fix this` fails and is reported with
its line number, `//TODO(alice): fix this` passes, and a file whose
lines 2, 4 and 5 are malformed yields exactly the three diagnostics
numbered 2, 4, 5. -/
theorem C2_annotation_format (path : List Char) (lines : List (List Char)) :
    (∀ i t, (i, t) ∈ todoIssues 1 lines ↔
      ∃ k l, lines[k]? = some l ∧ i = 1 + k ∧ searchTodoMarker l = true ∧
        searchValid l = false ∧ t = pyStrip l) ∧
    List.Pairwise (fun a b : Nat × List Char => a.1 < b.1) (todoIssues 1 lines) ∧
    ((check_todos path (Except.ok lines)).1 = true ↔ todoIssues 1 lines = []) ∧
    todoIssues 1 [("//TODO: fix this\n".toList)] = [] ∧
    todoIssues 1 [("//TODO fix this\n".toList)] = [(1, "//TODO fix this".toList)] ∧
    todoIssues 1 [("//TODO(alice): fix this\n".toList)] = [] ∧
    (todoIssues 1
        [("int x;\n".toList), ("//TODO fix\n".toList), ("//FIXME: ok\n".toList),
          ("//FIXME broken\n".toList), ("//TODO(bob) missing colon\n".toList)]).map Prod.fst
      = [2, 4, 5] := by
  refine ⟨fun i t => mem_todoIssues 1 lines i t, todoIssues_sorted 1 lines,
    check_todos_pass_iff path lines, by decide, by decide, by decide, by decide⟩

/-- C3: for the header-guard runner, the process outcome is 1 iff at
least one file fails its per-file check, 0 iff every per-file result
passed (the overall status is the logical AND of the per-file passed
flags), and the trailing summary line carrying the count of failing
files is printed iff that count is positive. -/
theorem C3_runner_aggregation (files : List (List Char × Except (List Char) (List Char))) :
    ((header_guards_main files).1 = 1 ↔
      0 < (files.filter (fun f => !(check_header_guard f.1 f.2).1)).length) ∧
    ((header_guards_main files).1 = 0 ↔
      files.all (fun f => (check_header_guard f.1 f.2).1) = true) ∧
    ((header_guards_main files).2.2 =
      if 0 < (files.filter (fun f => !(check_header_guard f.1 f.2).1)).length then
        some ('\n' ::
          ((Nat.repr (files.filter (fun f => !(check_header_guard f.1 f.2).1)).length).toList ++
            (" file(s) with header guard issues".toList)))
      else none) := by
  have hmain := runnerMain_cases (fun f => check_header_guard f.1 f.2)
      (" file(s) with header guard issues".toList) files
  rw [show header_guards_main files =
      runnerMain (fun f => check_header_guard f.1 f.2)
        (" file(s) with header guard issues".toList) files from rfl, hmain]
  by_cases hnil : files.filter (fun f => !(check_header_guard f.1 f.2).1) = []
  · have hemp : (files.filter (fun f => !(check_header_guard f.1 f.2).1)).isEmpty = true := by
      rw [hnil]
      rfl
    rw [hemp, if_pos rfl]
    refine ⟨by simp [hnil], ?_, by simp [hnil]⟩
    simp [(filter_not_nil_iff_all (fun f => (check_header_guard f.1 f.2).1) files).mp hnil]
  · have hemp : (files.filter (fun f => !(check_header_guard f.1 f.2).1)).isEmpty = false := by
      rcases hx : files.filter (fun f => !(check_header_guard f.1 f.2).1) with _ | ⟨a, l⟩
      · exact absurd hx hnil
      · rw [hx]
        rfl
    have hpos : 0 < (files.filter (fun f => !(check_header_guard f.1 f.2).1)).length :=
      List.length_pos.mpr hnil
    rw [hemp, if_neg (by decide : ¬((false : Bool) = true))]
    refine ⟨by simp [hpos], ?_, by rw [if_pos hpos]⟩
    constructor
    · intro h
      exact absurd h Nat.one_ne_zero
    · intro hall
      exact absurd
        ((filter_not_nil_iff_all (fun f => (check_header_guard f.1 f.2).1) files).mpr hall) hnil

/-- C4 (counterexample): the claim "for every input file, regardless of
its content or readability, the namespace-comment predicate reports
success" is false: a file whose read raises an I/O fault makes
`check_namespaces` return failure with the read-error diagnostic. -/
theorem C4_counterexample :
    check_namespaces ("include/App.h".toList)
        (Except.error ("Permission denied".toList)) =
      (false, ["Error reading include/App.h: Permission denied".toList]) := by
  decide

/-- C4 (amended): for every input file whose content can be read, the
namespace-comment predicate reports success regardless of the content
(a no-op check); a file whose read raises an I/O fault is instead an
immediate failure carrying the fault's message. -/
theorem C4_namespaces_noop (path content e : List Char) :
    check_namespaces path (Except.ok content) = (true, []) ∧
    check_namespaces path (Except.error e) =
      (false, [("Error reading ".toList) ++ path ++ (": ".toList) ++ e]) :=
  ⟨rfl, rfl⟩

/-- C5: a file whose read raises an I/O fault is an immediate per-file
failure whose sole diagnostic is the read-error message containing the
fault's text (for both the header-guard and the annotation checker),
and the batch loop still processes every file before and after it: the
loop over `pre ++ fault :: post` produces exactly the diagnostics of
`pre`, then the fault diagnostic, then the diagnostics of `post`, and
records the faulting file as failed in between. -/
theorem C5_io_fault_isolation (p e : List Char)
    (pre post : List (List Char × Except (List Char) (List Char))) :
    check_header_guard p (Except.error e) =
      (false, [("Error reading ".toList) ++ p ++ (": ".toList) ++ e]) ∧
    check_todos p (Except.error e) =
      (false, [("Error reading ".toList) ++ p ++ (": ".toList) ++ e]) ∧
    runnerLoop (fun f => check_header_guard f.1 f.2) (pre ++ (p, Except.error e) :: post) =
      ((runnerLoop (fun f => check_header_guard f.1 f.2) pre).1 ++
          ((("Error reading ".toList) ++ p ++ (": ".toList) ++ e) ::
            (runnerLoop (fun f => check_header_guard f.1 f.2) post).1),
        (runnerLoop (fun f => check_header_guard f.1 f.2) pre).2 ++
          ((p, Except.error e) ::
            (runnerLoop (fun f => check_header_guard f.1 f.2) post).2)) := by
  refine ⟨rfl, rfl, ?_⟩
  rw [runnerLoop_append (fun f => check_header_guard f.1 f.2) pre ((p, Except.error e) :: post)]
  have hone : runnerLoop (fun f => check_header_guard f.1 f.2) ((p, Except.error e) :: post) =
      (((("Error reading ".toList) ++ p ++ (": ".toList) ++ e) ::
          (runnerLoop (fun f => check_header_guard f.1 f.2) post).1),
        ((p, Except.error e) ::
          (runnerLoop (fun f => check_header_guard f.1 f.2) post).2)) := by
    simp [runnerLoop, check_header_guard]
  rw [hone]

/-- C6 (counterexample): the claim "even when the source-root prefix is
absent, the whole path is used" is false: `mysrc/foo.h` does not start
with the source-root prefix `src/`, yet the derivation strips up to the
first occurrence of the substring `src/` inside `mysrc/` and yields
`FOO_H`, not the whole-path guard `MYSRC_FOO_H`. -/
theorem C6_counterexample :
    (("src/".toList).isPrefixOf ("mysrc/foo.h".toList)) = false ∧
    expected_guard ("mysrc/foo.h".toList) = "FOO_H".toList ∧
    wholePathGuard ("mysrc/foo.h".toList) = "MYSRC_FOO_H".toList ∧
    expected_guard ("mysrc/foo.h".toList) ≠ wholePathGuard ("mysrc/foo.h".toList) := by
  refine ⟨by decide, by decide, by decide, by decide⟩

/-- C6 (amended): the guard-name derivation is a pure deterministic
function of the path string alone: it drops everything up to and
including the first occurrence of the substring `src/` (anywhere in the
path, not only as a leading prefix), replaces path separators and every
dot with underscore, and upper-cases the result; when `src/` does not
occur as a substring the whole path is used; equal path strings yield
equal guards; and guard("src/Layers/Layer.h") = "LAYERS_LAYER_H". -/
theorem C6_guard_derivation (p q : List Char)
    (h : containsSub ("src/".toList) p = false) :
    expected_guard p = wholePathGuard p ∧
    (p = q → expected_guard p = expected_guard q) ∧
    expected_guard ("src/Layers/Layer.h".toList) = "LAYERS_LAYER_H".toList := by
  refine ⟨?_, fun hpq => by rw [hpq], by decide⟩
  have hnone : afterFirst ("src/".toList) p = none := by
    cases haf : afterFirst ("src/".toList) p with
    | none => rfl
    | some t =>
      rw [containsSub, haf] at h
      simp at h
  rw [expected_guard, wholePathGuard, hnone]
  rfl

/-- C6 witness: the amended derivation applied at the concrete path
`Layers/Layer.h`, which contains no `src/` substring. -/
theorem C6_guard_derivation_witness :
    expected_guard ("Layers/Layer.h".toList) = wholePathGuard ("Layers/Layer.h".toList) :=
  (C6_guard_derivation ("Layers/Layer.h".toList) ("Layers/Layer.h".toList) (by decide)).1

/-- C7: on the empty file list, each of the three checker mains returns
exit code 0, prints no diagnostic line, and prints no summary line. -/
theorem C7_empty_file_list :
    header_guards_main [] = (0, [], none) ∧
    todos_main [] = (0, [], none) ∧
    namespaces_main [] = (0, [], none) :=
  ⟨rfl, rfl, rfl⟩

/-- C8 (counterexample): the claim is false of the coverage wrapper:
its `run_command` passes no timeout at all to `subprocess.run` (the
fixed 300 timeout lives in run-code-quality.py), and a launch fault is
not caught there — it escapes `run_command` and, since `main` installs
no handler, aborts the whole run through the top-level handler with
exit code 1 rather than being a failure of that step only. -/
theorem C8_counterexample :
    coverage_run_command_timeout ≠ some 300 ∧
    coverage_run_command true
        (ProcResult.launchFault ("No such file or directory: 'cmake'".toList)) =
      Except.error ("No such file or directory: 'cmake'".toList) ∧
    coverage_top_level
        (Except.error ("No such file or directory: 'cmake'".toList)) = 1 := by
  refine ⟨by decide, rfl, rfl⟩

/-- C8 (amended): it is the code-quality wrapper whose subprocess
invocations carry the fixed timeout of 300 time-units and whose
`run_command` turns a timeout or launch fault into a failure of that
step only (returning success = false with the fault message); the
coverage wrapper's `run_command` passes no timeout, and a fault
escaping it aborts the run via the top-level handler with exit 1. -/
theorem C8_subprocess_model (m : List Char) (rc : Int) (out err : List Char) :
    quality_run_command_timeout = some 300 ∧
    quality_run_command (ProcResult.timedOut m) = (false, [], m) ∧
    quality_run_command (ProcResult.launchFault m) = (false, [], m) ∧
    quality_run_command (ProcResult.completed rc out err) = (rc == 0, out, err) ∧
    coverage_run_command_timeout = none ∧
    coverage_run_command true (ProcResult.launchFault m) = Except.error m ∧
    coverage_top_level (Except.error m) = 1 :=
  ⟨rfl, rfl, rfl, rfl, rfl, rfl, rfl⟩

/-- C9: the trigger search of the annotation checker requires the
TODO/FIXME keyword to follow the two slashes with no intervening
character - a line containing neither `//TODO` nor `//FIXME` as a
substring is never flagged; in particular `// TODO fix this` (space
between the slashes and the keyword) does not match the valid format
yet produces no violation. -/
theorem C9_marker_adjacency (line : List Char)
    (h1 : containsSub ("//TODO".toList) line = false)
    (h2 : containsSub ("//FIXME".toList) line = false) :
    searchTodoMarker line = false ∧
    (∀ n, todoIssues n [line] = []) ∧
    todoIssues 1 [("// TODO fix this\n".toList)] = [] ∧
    searchValid ("// TODO fix this\n".toList) = false := by
  have hm : searchTodoMarker line = false := by
    rw [searchTodoMarker, h1, h2]
    rfl
  refine ⟨hm, ?_, by decide, by decide⟩
  intro n
  simp [todoIssues, hm]

/-- C9 witness: the theorem applied at the concrete line
`// TODO fix this`, which contains no adjacent marker. -/
theorem C9_marker_adjacency_witness :
    searchTodoMarker ("// TODO fix this\n".toList) = false :=
  (C9_marker_adjacency ("// TODO fix this\n".toList) (by decide) (by decide)).1

/-- C10: the clang-tidy wrapper's `main` returns exit code 0 for every
parsed argument list; it never launches a subprocess and never opens a
file; with files it prints only the skip notice and the follow-up note,
and with no files it prints only `No files to check`, so it can never
report a failure. -/
theorem C10_clang_tidy_skips (args : TidyArgs) :
    (run_clang_tidy_main args).exit = 0 ∧
    (run_clang_tidy_main args).subprocessCalls = [] ∧
    (run_clang_tidy_main args).filesOpened = [] ∧
    (run_clang_tidy_main args).printed =
      (if args.files.isEmpty then ["No files to check".toList]
       else
        [("clang-tidy: Skipping ".toList) ++ (Nat.repr args.files.length).toList ++
            (" file(s) (requires build configuration)".toList),
          "Note: Run 'cmake --build build --target tidy-all' for full static analysis".toList]) := by
  rw [run_clang_tidy_main]
  cases h : args.files.isEmpty with
  | true => exact ⟨rfl, rfl, rfl, rfl⟩
  | false => exact ⟨rfl, rfl, rfl, rfl⟩
